/-
Verification of the ai4ports ingestion and temporal-alignment engine.

Shallow embedding of the Django management commands under
`backend/missions/management/commands/`:

* `import_sonar_imageset_v1.py`, `import_panasonic_imageset_v1.py`,
  `import_mission_sessions_v2.py` — session importers: nearest-timestamp
  join of frames against the mission NavSample timeline, mission
  auto-detection, idempotent MediaAsset/FrameIndex persistence.
* `parse_bin_log.py` — binary telemetry loader: timestamp resolution,
  mission-window filtering, batch flushing, the `already_parsed` flag.
* `correct_depths.py` — tide bracketing and cosine interpolation.

Timestamps are modelled as integers (epoch microseconds / milliseconds as
noted per definition); tide heights and depths as real numbers (the source
uses Python floats and `math.cos`).
-/
import Mathlib

namespace AI4Ports

/-! ## Nearest-timestamp join

The importers use `bisect.bisect_left` on the sorted list of NavSample
timestamps.  On a sorted list, `bisect_left` returns the leftmost insertion
position, i.e. the number of leading elements strictly below the query.
-/

/-- Python `bisect.bisect_left` on a sorted list: the leftmost insertion
position of `q` in `R`, i.e. the length of the maximal prefix of elements
strictly below `q`. -/
def bisect_left : List ℤ → ℤ → ℕ
  | [], _ => 0
  | x :: xs, q => if x < q then bisect_left xs q + 1 else 0

/-- Nearest-NavSample index selection of `import_sonar_imageset_v1.py`
(`process_session`, lines 256–266) and `import_panasonic_imageset_v1.py`
(`process_session`, lines 252–263): insertion position `pos`; if `pos = 0`
take index 0, if `pos = n` take `n-1`, otherwise compare the distances to
`R[pos-1]` and `R[pos]`, preferring `pos-1` on `≤`. -/
def nearestIdxV1 (R : List ℤ) (q : ℤ) : ℕ :=
  let n := R.length
  let pos := bisect_left R q
  if pos = 0 then 0
  else if pos = n then n - 1
  else
    let before := R.getD (pos - 1) 0
    let after := R.getD pos 0
    if |q - before| ≤ |after - q| then pos - 1 else pos

/-- Nearest-NavSample index selection of `import_mission_sessions_v2.py`
(`_save_asset_sequence` lines 368–374 and `import_camera_0` lines 218–224):
`idx = pos if pos < n else n-1`; then, when `pos > 0`, compare the distance
to `R[pos-1]` with the distance to `R[min pos (n-1)]` and move to `pos-1`
on `≤`. -/
def nearestIdxV2 (R : List ℤ) (q : ℤ) : ℕ :=
  let n := R.length
  let pos := bisect_left R q
  let idx := if pos < n then pos else n - 1
  if 0 < pos then
    let before := R.getD (pos - 1) 0
    let after := R.getD (min pos (n - 1)) 0
    if |q - before| ≤ |after - q| then pos - 1 else idx
  else idx

theorem bisect_left_le_length (R : List ℤ) (q : ℤ) : bisect_left R q ≤ R.length := by
  induction R with
  | nil => simp [bisect_left]
  | cons x xs ih =>
    simp only [bisect_left, List.length_cons]
    split
    · omega
    · omega

theorem getD_lt_of_lt_bisect_left {R : List ℤ} {q : ℤ} {j : ℕ}
    (hj : j < bisect_left R q) : R.getD j 0 < q := by
  induction R generalizing j with
  | nil => simp [bisect_left] at hj
  | cons x xs ih =>
    simp only [bisect_left] at hj
    split at hj
    · cases j with
      | zero => simpa using ‹x < q›
      | succ j' => exact ih (by omega)
    · omega

theorem le_getD_of_bisect_left_le {R : List ℤ} {q : ℤ} {j : ℕ}
    (hs : R.Sorted (· ≤ ·)) (hj : bisect_left R q ≤ j) (hjn : j < R.length) :
    q ≤ R.getD j 0 := by
  induction R generalizing j with
  | nil => simp at hjn
  | cons x xs ih =>
    rw [List.sorted_cons] at hs
    simp only [bisect_left] at hj
    split at hj
    · cases j with
      | zero => omega
      | succ j' =>
        exact ih hs.2 (by omega) (by simpa using Nat.lt_of_succ_lt_succ hjn)
    · cases j with
      | zero => simpa using not_lt.mp ‹¬ x < q›
      | succ j' =>
        have hx : q ≤ x := not_lt.mp ‹¬ x < q›
        have hj' : j' < xs.length := by simpa using Nat.lt_of_succ_lt_succ hjn
        have hmem : xs.getD j' 0 ∈ xs := by
          rw [List.getD_eq_get _ _ hj']
          exact List.get_mem xs _ hj'
        calc q ≤ x := hx
          _ ≤ xs.getD j' 0 := hs.1 _ hmem
          _ = (x :: xs).getD (j' + 1) 0 := rfl

theorem sorted_getD_mono {R : List ℤ} (hs : R.Sorted (· ≤ ·)) {i j : ℕ}
    (hij : i ≤ j) (hj : j < R.length) : R.getD i 0 ≤ R.getD j 0 := by
  have hi : i < R.length := lt_of_le_of_lt hij hj
  rw [List.getD_eq_get _ _ hi, List.getD_eq_get _ _ hj]
  rcases Nat.eq_or_lt_of_le hij with h | h
  · subst h; rfl
  · exact hs.rel_get_of_lt (by simpa using h)

theorem nearestIdxV1_min (R : List ℤ) (q : ℤ) (hs : R.Sorted (· ≤ ·)) (hne : R ≠ [])
    (j : ℕ) (hj : j < R.length) :
    |R.getD (nearestIdxV1 R q) 0 - q| ≤ |R.getD j 0 - q| := by
  have hn : 0 < R.length := List.length_pos.mpr hne
  have hple : bisect_left R q ≤ R.length := bisect_left_le_length R q
  by_cases h0 : bisect_left R q = 0
  · have e : nearestIdxV1 R q = 0 := by
      simp only [nearestIdxV1]
      rw [if_pos h0]
    rw [e]
    have hq0 : q ≤ R.getD 0 0 := le_getD_of_bisect_left_le hs (by omega) hn
    have hqj : q ≤ R.getD j 0 := le_getD_of_bisect_left_le hs (by omega) hj
    have hmono : R.getD 0 0 ≤ R.getD j 0 := sorted_getD_mono hs (Nat.zero_le j) hj
    rw [abs_of_nonneg (by linarith), abs_of_nonneg (by linarith)]
    linarith
  · by_cases hN : bisect_left R q = R.length
    · have e : nearestIdxV1 R q = R.length - 1 := by
        simp only [nearestIdxV1]
        rw [if_neg h0, if_pos hN]
      rw [e]
      have hjlt : R.getD j 0 < q := getD_lt_of_lt_bisect_left (by omega)
      have hlast : R.getD (R.length - 1) 0 < q := getD_lt_of_lt_bisect_left (by omega)
      have hmono : R.getD j 0 ≤ R.getD (R.length - 1) 0 :=
        sorted_getD_mono hs (by omega) (by omega)
      rw [abs_of_nonpos (by linarith), abs_of_nonpos (by linarith)]
      linarith
    · have hposn : bisect_left R q < R.length := by omega
      have hb : R.getD (bisect_left R q - 1) 0 < q := getD_lt_of_lt_bisect_left (by omega)
      have ha : q ≤ R.getD (bisect_left R q) 0 :=
        le_getD_of_bisect_left_le hs (le_refl _) hposn
      by_cases hc : |q - R.getD (bisect_left R q - 1) 0| ≤ |R.getD (bisect_left R q) 0 - q|
      · have e : nearestIdxV1 R q = bisect_left R q - 1 := by
          simp only [nearestIdxV1]
          rw [if_neg h0, if_neg hN, if_pos hc]
        rw [e]
        rw [abs_of_nonneg (by linarith), abs_of_nonneg (by linarith)] at hc
        rw [abs_of_nonpos (by linarith)]
        by_cases hjp : j < bisect_left R q
        · have hjlt : R.getD j 0 < q := getD_lt_of_lt_bisect_left hjp
          have hmono : R.getD j 0 ≤ R.getD (bisect_left R q - 1) 0 :=
            sorted_getD_mono hs (by omega) (by omega)
          rw [abs_of_nonpos (by linarith)]
          linarith
        · have hqj : q ≤ R.getD j 0 := le_getD_of_bisect_left_le hs (by omega) hj
          have hmono : R.getD (bisect_left R q) 0 ≤ R.getD j 0 :=
            sorted_getD_mono hs (by omega) hj
          rw [abs_of_nonneg (by linarith)]
          linarith
      · have e : nearestIdxV1 R q = bisect_left R q := by
          simp only [nearestIdxV1]
          rw [if_neg h0, if_neg hN, if_neg hc]
        rw [e]
        rw [abs_of_nonneg (by linarith), abs_of_nonneg (by linarith)] at hc
        push_neg at hc
        rw [abs_of_nonneg (by linarith)]
        by_cases hjp : j < bisect_left R q
        · have hjlt : R.getD j 0 < q := getD_lt_of_lt_bisect_left hjp
          have hmono : R.getD j 0 ≤ R.getD (bisect_left R q - 1) 0 :=
            sorted_getD_mono hs (by omega) (by omega)
          rw [abs_of_nonpos (by linarith)]
          linarith
        · have hqj : q ≤ R.getD j 0 := le_getD_of_bisect_left_le hs (by omega) hj
          have hmono : R.getD (bisect_left R q) 0 ≤ R.getD j 0 :=
            sorted_getD_mono hs (by omega) hj
          rw [abs_of_nonneg (by linarith)]
          linarith

theorem nearestIdxV2_eq_V1 (R : List ℤ) (q : ℤ) : nearestIdxV2 R q = nearestIdxV1 R q := by
  have hple : bisect_left R q ≤ R.length := bisect_left_le_length R q
  by_cases h0 : bisect_left R q = 0
  · by_cases hn : 0 < R.length
    · simp [nearestIdxV1, nearestIdxV2, h0, hn]
    · simp [nearestIdxV1, nearestIdxV2, h0]
      omega
  · by_cases hN : bisect_left R q = R.length
    · have hmin : min (bisect_left R q) (R.length - 1) = R.length - 1 := by omega
      have hcond : |q - R.getD (bisect_left R q - 1) 0| ≤
          |R.getD (min (bisect_left R q) (R.length - 1)) 0 - q| := by
        rw [hmin, ← hN]
        rw [abs_sub_comm]
      simp only [nearestIdxV2, nearestIdxV1]
      rw [if_neg (by omega : ¬ bisect_left R q < R.length), if_pos (by omega : 0 < bisect_left R q),
        if_pos hcond, if_neg h0, if_pos hN]
      omega
    · have hlt : bisect_left R q < R.length := by omega
      have hmin : min (bisect_left R q) (R.length - 1) = bisect_left R q := by omega
      simp only [nearestIdxV2, nearestIdxV1]
      rw [if_pos hlt, if_pos (by omega : 0 < bisect_left R q), hmin, if_neg h0, if_neg hN]

/-- C1: on a non-empty timestamp-sorted reference list `R`, both importer
variants of the `bisect_left`-based nearest-neighbor match (the
`import_sonar_imageset_v1` / `import_panasonic_imageset_v1` form
`nearestIdxV1` and the `import_mission_sessions_v2` form `nearestIdxV2`)
select an index minimizing `|R[i] - q|` over all indices, and when the
distances to the two candidates `R[pos-1]`, `R[pos]` are exactly equal the
earlier index `pos - 1` is chosen. -/
theorem nearest_neighbor_match_correct (R : List ℤ) (q : ℤ)
    (hs : R.Sorted (· ≤ ·)) (hne : R ≠ []) :
    (∀ j, j < R.length → |R.getD (nearestIdxV1 R q) 0 - q| ≤ |R.getD j 0 - q|) ∧
    (∀ j, j < R.length → |R.getD (nearestIdxV2 R q) 0 - q| ≤ |R.getD j 0 - q|) ∧
    (0 < bisect_left R q → bisect_left R q < R.length →
      |R.getD (bisect_left R q - 1) 0 - q| = |R.getD (bisect_left R q) 0 - q| →
      nearestIdxV1 R q = bisect_left R q - 1 ∧
      nearestIdxV2 R q = bisect_left R q - 1) := by
  refine ⟨fun j hj => nearestIdxV1_min R q hs hne j hj,
    fun j hj => by rw [nearestIdxV2_eq_V1]; exact nearestIdxV1_min R q hs hne j hj,
    fun hp hpn htie => ?_⟩
  have e : nearestIdxV1 R q = bisect_left R q - 1 := by
    have hc : |q - R.getD (bisect_left R q - 1) 0| ≤ |R.getD (bisect_left R q) 0 - q| := by
      rw [abs_sub_comm]
      exact le_of_eq htie
    simp only [nearestIdxV1]
    rw [if_neg (by omega), if_neg (by omega), if_pos hc]
  exact ⟨e, by rw [nearestIdxV2_eq_V1]; exact e⟩

/-- Witness for C1 at `R = [0, 10]`, `q = 4`: the match picks index 0. -/
theorem nearest_neighbor_match_correct_witness :
    |([0, 10] : List ℤ).getD (nearestIdxV1 [0, 10] 4) 0 - 4| ≤
      |([0, 10] : List ℤ).getD 1 0 - 4| :=
  (nearest_neighbor_match_correct [0, 10] 4 (by decide) (by decide)).1 1 (by decide)

/-! ## Mission auto-detection

`import_sonar_imageset_v1.py` / `import_panasonic_imageset_v1.py` filter
`Mission.objects` by `start_time <= dt` and (`end_time >= dt` or
`end_time is null`), then raise `CommandError` on zero or multiple
candidates.  `import_mission_sessions_v2.py` (`find_mission_by_time`)
runs the same filter but returns `.first()` with no ambiguity check. -/

/-- A `Mission` row as seen by the importers: `start_time` and an optional
`end_time` (open-ended when null), timestamps in epoch milliseconds. -/
structure Mission where
  ident : ℕ
  start_time : ℤ
  end_time : Option ℤ
deriving DecidableEq

/-- The Django queryset filter
`Q(start_time__lte=dt) & (Q(end_time__gte=dt) | Q(end_time__isnull=True))`
shared by all three importers. -/
def missionMatches (m : Mission) (dt : ℤ) : Bool :=
  decide (m.start_time ≤ dt) &&
    (match m.end_time with
     | none => true
     | some e => decide (dt ≤ e))

/-- Mission auto-detection of `import_sonar_imageset_v1.handle` (lines
103–113) and `import_panasonic_imageset_v1.handle` (lines 96–106):
`CommandError` when the candidate count is 0 or more than 1, otherwise the
unique candidate (`candidates.first()`). -/
def autoDetectMissionV1 (missions : List Mission) (dt : ℤ) : Except String Mission :=
  match missions.filter (fun m => missionMatches m dt) with
  | [] => Except.error "No Mission found covering the time"
  | [m] => Except.ok m
  | _ :: _ :: _ => Except.error "Ambiguous! Multiple missions match this time"

/-- `import_mission_sessions_v2.find_mission_by_time` (lines 424–428): the
same filter, but the result is `.first()` — no ambiguity check. -/
def find_mission_by_time (missions : List Mission) (dt : ℤ) : Option Mission :=
  (missions.filter (fun m => missionMatches m dt)).head?

/-- C2 counterexample: two missions (ids 1 and 2) whose windows `[0, 100]`
both contain the detected timestamp `50`; `import_mission_sessions_v2`'s
`find_mission_by_time` silently selects the first instead of failing, so
the claim that every importer fails on an ambiguous match is false. -/
theorem find_mission_ambiguous_silently_picks :
    (([⟨1, 0, some 100⟩, ⟨2, 0, some 100⟩] : List Mission).filter
        (fun m => missionMatches m 50)).length = 2 ∧
    find_mission_by_time [⟨1, 0, some 100⟩, ⟨2, 0, some 100⟩] 50 =
      some ⟨1, 0, some 100⟩ := by
  constructor
  · rfl
  · rfl

/-- C2 amended: the v1 importers (`import_sonar_imageset_v1`,
`import_panasonic_imageset_v1`) fail with a fatal `CommandError` on zero
or multiple matching missions and return the unique candidate otherwise;
`import_mission_sessions_v2` reports an error (selects nothing) on zero
matches but, on more than one match, silently selects the first matching
mission. -/
theorem mission_auto_detection_amended (missions : List Mission) (dt : ℤ) :
    ((missions.filter (fun m => missionMatches m dt)).length = 0 →
      autoDetectMissionV1 missions dt = Except.error "No Mission found covering the time" ∧
      find_mission_by_time missions dt = none) ∧
    (1 < (missions.filter (fun m => missionMatches m dt)).length →
      autoDetectMissionV1 missions dt =
        Except.error "Ambiguous! Multiple missions match this time" ∧
      ∃ m, find_mission_by_time missions dt = some m ∧
        m ∈ missions.filter (fun m' => missionMatches m' dt)) ∧
    (∀ m, autoDetectMissionV1 missions dt = Except.ok m →
      missions.filter (fun m' => missionMatches m' dt) = [m]) := by
  refine ⟨fun h0 => ?_, fun h2 => ?_, fun m hm => ?_⟩
  · rw [List.length_eq_zero] at h0
    exact ⟨by simp [autoDetectMissionV1, h0], by simp [find_mission_by_time, h0]⟩
  · match hf : missions.filter (fun m => missionMatches m dt) with
    | [] => rw [hf] at h2; simp at h2
    | [m] => rw [hf] at h2; simp at h2
    | m1 :: m2 :: rest =>
      refine ⟨by simp [autoDetectMissionV1, hf], m1, ?_, by simp [hf]⟩
      simp [find_mission_by_time, hf]
  · unfold autoDetectMissionV1 at hm
    match hf : missions.filter (fun m => missionMatches m dt) with
    | [] => rw [hf] at hm; simp at hm
    | [m'] => rw [hf] at hm; simp at hm; rw [hm]
    | m1 :: m2 :: rest => rw [hf] at hm; simp at hm

/-- Witness for C2's amended theorem in the ambiguous case: two missions
match timestamp 50; v1 errors while v2 selects a matching mission. -/
theorem mission_auto_detection_amended_witness :
    autoDetectMissionV1 [⟨1, 0, some 100⟩, ⟨2, 0, some 100⟩] 50 =
      Except.error "Ambiguous! Multiple missions match this time" ∧
    ∃ m, find_mission_by_time [⟨1, 0, some 100⟩, ⟨2, 0, some 100⟩] 50 = some m ∧
      m ∈ ([⟨1, 0, some 100⟩, ⟨2, 0, some 100⟩] : List Mission).filter
        (fun m' => missionMatches m' 50) :=
  (mission_auto_detection_amended [⟨1, 0, some 100⟩, ⟨2, 0, some 100⟩] 50).2.1 (by decide)

/-! ## Session-importer persistence

MediaAsset natural key, FrameIndex rows, and the delete-then-recreate
re-import of `import_sonar_imageset_v1.process_session` /
`import_panasonic_imageset_v1.process_session` (identical persistence
shape) and `import_mission_sessions_v2._save_asset_sequence`.
Frame timestamps are epoch milliseconds. -/

/-- MediaAsset natural key: `(deployment, file_path, media_type)`, the
lookup kwargs of every importer's `update_or_create`. -/
structure AssetKey where
  deployment : ℕ
  file_path : String
  media_type : ℕ
deriving DecidableEq

/-- The `defaults` payload of `update_or_create` that the claims depend
on: start/end time of the frame sequence and the image count. -/
structure AssetDefaults where
  start_time : ℤ
  end_time : ℤ
  image_count : ℕ
deriving DecidableEq

/-- One `FrameIndex` row. -/
structure Frame where
  frame_number : ℕ
  timestamp : ℤ
  closest_nav_sample_id : Option ℕ
  nav_match_time_diff_ms : Option ℤ
deriving DecidableEq

/-- Database state touched by the importers: MediaAsset rows (by natural
key), their defaults, their FrameIndex rows, and whether
`calculate_stats` has been run for an asset in this import. -/
@[ext]
structure DB where
  assets : List AssetKey
  defaults : AssetKey → Option AssetDefaults
  frames : AssetKey → List Frame
  statsFresh : AssetKey → Bool

/-- `MediaAsset.objects.update_or_create(deployment=…, file_path=…,
media_type=…, defaults={…})`: update the defaults of the row with this
natural key if it exists, else create it. -/
def updateOrCreateAsset (db : DB) (key : AssetKey) (d : AssetDefaults) : DB :=
  { db with
    assets := if key ∈ db.assets then db.assets else db.assets ++ [key]
    defaults := fun k => if k = key then some d else db.defaults k }

/-- `frame_data.sort(key=lambda x: x[0])`: sort parsed
`(frame_number, timestamp)` pairs by frame number. -/
def sortByFrameNumber (l : List (ℕ × ℤ)) : List (ℕ × ℤ) :=
  l.insertionSort (fun a b => a.1 ≤ b.1)

/-- One FrameIndex row of the v1 importers (`import_sonar_imageset_v1`
lines 251–275, `import_panasonic_imageset_v1` lines 246–275): nearest
NavSample via `nearestIdxV1` when any NavSamples exist, else null link and
null delta. -/
def buildFrameRowV1 (nav_ids : List ℕ) (nav_ts : List ℤ) (f_num : ℕ) (f_ts : ℤ) : Frame :=
  if 0 < nav_ts.length then
    let idx := nearestIdxV1 nav_ts f_ts
    { frame_number := f_num, timestamp := f_ts,
      closest_nav_sample_id := some (nav_ids.getD idx 0),
      nav_match_time_diff_ms := some |f_ts - nav_ts.getD idx 0| }
  else
    { frame_number := f_num, timestamp := f_ts,
      closest_nav_sample_id := none, nav_match_time_diff_ms := none }

/-- One FrameIndex row of `import_mission_sessions_v2` (lines 364–382),
using the `nearestIdxV2` selection. -/
def buildFrameRowV2 (nav_ids : List ℕ) (nav_ts : List ℤ) (f_num : ℕ) (f_ts : ℤ) : Frame :=
  if 0 < nav_ts.length then
    let idx := nearestIdxV2 nav_ts f_ts
    { frame_number := f_num, timestamp := f_ts,
      closest_nav_sample_id := some (nav_ids.getD idx 0),
      nav_match_time_diff_ms := some |f_ts - nav_ts.getD idx 0| }
  else
    { frame_number := f_num, timestamp := f_ts,
      closest_nav_sample_id := none, nav_match_time_diff_ms := none }

/-- `import_sonar_imageset_v1.process_session` persistence (lines
222–278; `import_panasonic_imageset_v1.process_session` lines 205–279 is
identical in shape): abort on empty parse results (`CommandError`, no
write), else sort by frame number, `update_or_create` the MediaAsset,
delete its FrameIndex rows and bulk-create the freshly built ones.  No
`calculate_stats` call occurs in these importers. -/
def process_session_v1 (nav_ids : List ℕ) (nav_ts : List ℤ) (key : AssetKey)
    (frame_data : List (ℕ × ℤ)) (db : DB) : DB :=
  if frame_data.isEmpty then db
  else
    let sorted := sortByFrameNumber frame_data
    let db1 := updateOrCreateAsset db key
      ⟨(sorted.headD (0, 0)).2, (sorted.getLastD (0, 0)).2, sorted.length⟩
    { db1 with
      frames := fun k =>
        if k = key then sorted.map (fun p => buildFrameRowV1 nav_ids nav_ts p.1 p.2)
        else db1.frames k }

/-- `import_mission_sessions_v2._save_asset_sequence` (lines 327–389):
sort, `update_or_create`, delete-then-recreate the FrameIndex rows, then
`asset.calculate_stats()`.  Callers only invoke it with non-empty
`frame_data` (`if frame_data:` guards at lines 284 and 318). -/
def save_asset_sequence_v2 (nav_ids : List ℕ) (nav_ts : List ℤ) (key : AssetKey)
    (frame_data : List (ℕ × ℤ)) (db : DB) : DB :=
  if frame_data.isEmpty then db
  else
    let sorted := sortByFrameNumber frame_data
    let db1 := updateOrCreateAsset db key
      ⟨(sorted.headD (0, 0)).2, (sorted.getLastD (0, 0)).2, sorted.length⟩
    { db1 with
      frames := fun k =>
        if k = key then sorted.map (fun p => buildFrameRowV2 nav_ids nav_ts p.1 p.2)
        else db1.frames k
      statsFresh := fun k => if k = key then true else db1.statsFresh k }

theorem mem_assets_process_session_v1 (nav_ids : List ℕ) (nav_ts : List ℤ)
    (key : AssetKey) (fd : List (ℕ × ℤ)) (db : DB) (hfd : fd.isEmpty = false) :
    key ∈ (process_session_v1 nav_ids nav_ts key fd db).assets := by
  simp only [process_session_v1, updateOrCreateAsset, hfd, Bool.false_eq_true, if_false]
  split
  · assumption
  · simp

theorem mem_assets_save_asset_sequence_v2 (nav_ids : List ℕ) (nav_ts : List ℤ)
    (key : AssetKey) (fd : List (ℕ × ℤ)) (db : DB) (hfd : fd.isEmpty = false) :
    key ∈ (save_asset_sequence_v2 nav_ids nav_ts key fd db).assets := by
  simp only [save_asset_sequence_v2, updateOrCreateAsset, hfd, Bool.false_eq_true, if_false]
  split
  · assumption
  · simp

theorem process_v1_assets {nav_ids : List ℕ} {nav_ts : List ℤ} {key : AssetKey}
    {fd : List (ℕ × ℤ)} (hfd : fd.isEmpty = false) (db : DB) :
    (process_session_v1 nav_ids nav_ts key fd db).assets =
      if key ∈ db.assets then db.assets else db.assets ++ [key] := by
  simp [process_session_v1, updateOrCreateAsset, hfd]

theorem process_v1_defaults {nav_ids : List ℕ} {nav_ts : List ℤ} {key : AssetKey}
    {fd : List (ℕ × ℤ)} (hfd : fd.isEmpty = false) (db : DB) (k : AssetKey) :
    (process_session_v1 nav_ids nav_ts key fd db).defaults k =
      if k = key then
        some ⟨((sortByFrameNumber fd).headD (0, 0)).2,
          ((sortByFrameNumber fd).getLastD (0, 0)).2, (sortByFrameNumber fd).length⟩
      else db.defaults k := by
  simp [process_session_v1, updateOrCreateAsset, hfd]

theorem process_v1_frames {nav_ids : List ℕ} {nav_ts : List ℤ} {key : AssetKey}
    {fd : List (ℕ × ℤ)} (hfd : fd.isEmpty = false) (db : DB) (k : AssetKey) :
    (process_session_v1 nav_ids nav_ts key fd db).frames k =
      if k = key then (sortByFrameNumber fd).map (fun p => buildFrameRowV1 nav_ids nav_ts p.1 p.2)
      else db.frames k := by
  simp [process_session_v1, updateOrCreateAsset, hfd]

theorem process_v1_statsFresh {nav_ids : List ℕ} {nav_ts : List ℤ} {key : AssetKey}
    {fd : List (ℕ × ℤ)} (hfd : fd.isEmpty = false) (db : DB) :
    (process_session_v1 nav_ids nav_ts key fd db).statsFresh = db.statsFresh := by
  simp [process_session_v1, updateOrCreateAsset, hfd]

theorem save_v2_assets {nav_ids : List ℕ} {nav_ts : List ℤ} {key : AssetKey}
    {fd : List (ℕ × ℤ)} (hfd : fd.isEmpty = false) (db : DB) :
    (save_asset_sequence_v2 nav_ids nav_ts key fd db).assets =
      if key ∈ db.assets then db.assets else db.assets ++ [key] := by
  simp [save_asset_sequence_v2, updateOrCreateAsset, hfd]

theorem save_v2_defaults {nav_ids : List ℕ} {nav_ts : List ℤ} {key : AssetKey}
    {fd : List (ℕ × ℤ)} (hfd : fd.isEmpty = false) (db : DB) (k : AssetKey) :
    (save_asset_sequence_v2 nav_ids nav_ts key fd db).defaults k =
      if k = key then
        some ⟨((sortByFrameNumber fd).headD (0, 0)).2,
          ((sortByFrameNumber fd).getLastD (0, 0)).2, (sortByFrameNumber fd).length⟩
      else db.defaults k := by
  simp [save_asset_sequence_v2, updateOrCreateAsset, hfd]

theorem save_v2_frames {nav_ids : List ℕ} {nav_ts : List ℤ} {key : AssetKey}
    {fd : List (ℕ × ℤ)} (hfd : fd.isEmpty = false) (db : DB) (k : AssetKey) :
    (save_asset_sequence_v2 nav_ids nav_ts key fd db).frames k =
      if k = key then (sortByFrameNumber fd).map (fun p => buildFrameRowV2 nav_ids nav_ts p.1 p.2)
      else db.frames k := by
  simp [save_asset_sequence_v2, updateOrCreateAsset, hfd]

theorem save_v2_statsFresh {nav_ids : List ℕ} {nav_ts : List ℤ} {key : AssetKey}
    {fd : List (ℕ × ℤ)} (hfd : fd.isEmpty = false) (db : DB) (k : AssetKey) :
    (save_asset_sequence_v2 nav_ids nav_ts key fd db).statsFresh k =
      if k = key then true else db.statsFresh k := by
  simp [save_asset_sequence_v2, updateOrCreateAsset, hfd]

theorem process_session_v1_idem (nav_ids : List ℕ) (nav_ts : List ℤ)
    (key : AssetKey) (fd : List (ℕ × ℤ)) (db : DB) :
    process_session_v1 nav_ids nav_ts key fd (process_session_v1 nav_ids nav_ts key fd db) =
      process_session_v1 nav_ids nav_ts key fd db := by
  by_cases hfd : fd.isEmpty
  · simp [process_session_v1, hfd]
  · rw [Bool.not_eq_true] at hfd
    have hmem := mem_assets_process_session_v1 nav_ids nav_ts key fd db hfd
    refine DB.ext ?_ ?_ ?_ ?_
    · rw [process_v1_assets hfd, process_v1_assets hfd]
      by_cases hm : key ∈ db.assets <;> simp [hm]
    · funext k
      by_cases hk : k = key <;>
        simp [process_v1_defaults hfd, hk]
    · funext k
      by_cases hk : k = key <;>
        simp [process_v1_frames hfd, hk]
    · rw [process_v1_statsFresh hfd, process_v1_statsFresh hfd]

theorem save_asset_sequence_v2_idem (nav_ids : List ℕ) (nav_ts : List ℤ)
    (key : AssetKey) (fd : List (ℕ × ℤ)) (db : DB) :
    save_asset_sequence_v2 nav_ids nav_ts key fd (save_asset_sequence_v2 nav_ids nav_ts key fd db) =
      save_asset_sequence_v2 nav_ids nav_ts key fd db := by
  by_cases hfd : fd.isEmpty
  · simp [save_asset_sequence_v2, hfd]
  · rw [Bool.not_eq_true] at hfd
    have hmem := mem_assets_save_asset_sequence_v2 nav_ids nav_ts key fd db hfd
    refine DB.ext ?_ ?_ ?_ ?_
    · rw [save_v2_assets hfd, save_v2_assets hfd]
      by_cases hm : key ∈ db.assets <;> simp [hm]
    · funext k
      by_cases hk : k = key <;>
        simp [save_v2_defaults hfd, hk]
    · funext k
      by_cases hk : k = key <;>
        simp [save_v2_frames hfd, hk]
    · funext k
      by_cases hk : k = key <;>
        simp [save_v2_statsFresh hfd, hk]

theorem count_assets_after_import (nav_ids : List ℕ) (nav_ts : List ℤ)
    (key : AssetKey) (fd : List (ℕ × ℤ)) (db : DB)
    (hfd : fd.isEmpty = false) (hkey : key ∉ db.assets) :
    (process_session_v1 nav_ids nav_ts key fd db).assets.count key = 1 ∧
    (save_asset_sequence_v2 nav_ids nav_ts key fd db).assets.count key = 1 := by
  have hc : db.assets.count key = 0 := List.count_eq_zero.mpr hkey
  constructor
  · simp [process_session_v1, updateOrCreateAsset, hfd, hkey, List.count_append, hc]
  · simp [save_asset_sequence_v2, updateOrCreateAsset, hfd, hkey, List.count_append, hc]

/-- C4: re-running a session importer with unchanged inputs is idempotent:
the second run produces exactly the database state of the first (in
particular the same FrameIndex set, recreated by delete-then-recreate),
and for a natural key not previously present exactly one MediaAsset row
exists afterwards — never a second row for the same
`(deployment, file_path, media_type)`. -/
theorem session_import_idempotent (nav_ids : List ℕ) (nav_ts : List ℤ)
    (key : AssetKey) (fd : List (ℕ × ℤ)) (db : DB) :
    (process_session_v1 nav_ids nav_ts key fd (process_session_v1 nav_ids nav_ts key fd db) =
      process_session_v1 nav_ids nav_ts key fd db) ∧
    (save_asset_sequence_v2 nav_ids nav_ts key fd
        (save_asset_sequence_v2 nav_ids nav_ts key fd db) =
      save_asset_sequence_v2 nav_ids nav_ts key fd db) ∧
    (fd.isEmpty = false → key ∉ db.assets →
      (process_session_v1 nav_ids nav_ts key fd db).assets.count key = 1 ∧
      (save_asset_sequence_v2 nav_ids nav_ts key fd db).assets.count key = 1) :=
  ⟨process_session_v1_idem nav_ids nav_ts key fd db,
   save_asset_sequence_v2_idem nav_ids nav_ts key fd db,
   fun hfd hkey => count_assets_after_import nav_ids nav_ts key fd db hfd hkey⟩

/-- Witness for C4 at a concrete one-frame import into an empty database. -/
theorem session_import_idempotent_witness :
    (process_session_v1 [7] [5] ⟨1, "a", 2⟩ [(0, 5)]
        ⟨[], fun _ => none, fun _ => [], fun _ => false⟩).assets.count ⟨1, "a", 2⟩ = 1 ∧
    (save_asset_sequence_v2 [7] [5] ⟨1, "a", 2⟩ [(0, 5)]
        ⟨[], fun _ => none, fun _ => [], fun _ => false⟩).assets.count ⟨1, "a", 2⟩ = 1 :=
  (session_import_idempotent [7] [5] ⟨1, "a", 2⟩ [(0, 5)]
    ⟨[], fun _ => none, fun _ => [], fun _ => false⟩).2.2 (by decide) (by simp)

/-! ## Sonar concurrency fan-out (order independence)

`import_sonar_imageset_v1.process_session` gathers per-file parse results
with `concurrent.futures.as_completed` — an arbitrary completion order,
i.e. an arbitrary permutation of the parsed `(frame_number, timestamp)`
pairs — and then applies `frame_data.sort(key=lambda x: x[0])` before
persisting. -/

instance : IsTotal (ℕ × ℤ) (fun a b => a.1 ≤ b.1) :=
  ⟨fun a b => Nat.le_total a.1 b.1⟩

instance : IsTrans (ℕ × ℤ) (fun a b => a.1 ≤ b.1) :=
  ⟨fun _ _ _ hab hbc => Nat.le_trans hab hbc⟩

instance : IsAntisymm (ℕ × ℤ) (fun a b => a.1 < b.1) :=
  ⟨fun _ _ hab hba => absurd hba (Nat.lt_asymm hab)⟩

theorem pairwise_lt_of_sorted_nodup {s : List (ℕ × ℤ)}
    (hs : s.Pairwise (fun a b => a.1 ≤ b.1)) (hnd : (s.map Prod.fst).Nodup) :
    s.Pairwise (fun a b => a.1 < b.1) := by
  have hne : s.Pairwise (fun a b => a.1 ≠ b.1) := List.pairwise_map.mp hnd
  exact (hs.and hne).imp (fun h => Nat.lt_of_le_of_ne h.1 h.2)

theorem sortByFrameNumber_sorted (l : List (ℕ × ℤ)) :
    (sortByFrameNumber l).Pairwise (fun a b => a.1 ≤ b.1) :=
  List.sorted_insertionSort _ l

theorem sortByFrameNumber_perm (l : List (ℕ × ℤ)) : (sortByFrameNumber l).Perm l :=
  List.perm_insertionSort _ l

theorem sortByFrameNumber_order_independent {l1 l2 : List (ℕ × ℤ)} (h : l1.Perm l2)
    (hnd : (l1.map Prod.fst).Nodup) :
    sortByFrameNumber l1 = sortByFrameNumber l2 := by
  have hnd2 : (l2.map Prod.fst).Nodup := ((h.map Prod.fst).nodup_iff).mp hnd
  have hnd1' : ((sortByFrameNumber l1).map Prod.fst).Nodup :=
    (((sortByFrameNumber_perm l1).map Prod.fst).nodup_iff).mpr hnd
  have hnd2' : ((sortByFrameNumber l2).map Prod.fst).Nodup :=
    (((sortByFrameNumber_perm l2).map Prod.fst).nodup_iff).mpr hnd2
  exact List.eq_of_perm_of_sorted
    ((sortByFrameNumber_perm l1).trans (h.trans (sortByFrameNumber_perm l2).symm))
    (pairwise_lt_of_sorted_nodup (sortByFrameNumber_sorted l1) hnd1')
    (pairwise_lt_of_sorted_nodup (sortByFrameNumber_sorted l2) hnd2')

/-- C9: for any two completion orders of the concurrent sonar per-file
parses (i.e. any two permutations `l1 ~ l2` of the same parse results,
with one distinct frame number per source file), the persisted state of
`import_sonar_imageset_v1.process_session` is identical; the persisted
sequence is sorted with strictly increasing `frame_number` and contains
exactly one row per successfully parsed file (it is a permutation of the
parse results). -/
theorem sonar_fanout_order_independent (l1 l2 : List (ℕ × ℤ)) (h : l1.Perm l2)
    (hnd : (l1.map Prod.fst).Nodup) (nav_ids : List ℕ) (nav_ts : List ℤ)
    (key : AssetKey) (db : DB) :
    process_session_v1 nav_ids nav_ts key l1 db =
      process_session_v1 nav_ids nav_ts key l2 db ∧
    (sortByFrameNumber l1).Pairwise (fun a b => a.1 < b.1) ∧
    (sortByFrameNumber l1).Perm l1 := by
  have hsort : sortByFrameNumber l1 = sortByFrameNumber l2 :=
    sortByFrameNumber_order_independent h hnd
  have hemp : l1.isEmpty = l2.isEmpty := by
    cases l1 with
    | nil => rw [h.nil_eq.symm]
    | cons a t =>
      cases l2 with
      | nil => exact absurd h.symm.nil_eq (by simp)
      | cons b t' => rfl
  refine ⟨?_, ?_, sortByFrameNumber_perm l1⟩
  · simp only [process_session_v1, hsort, hemp]
  · exact pairwise_lt_of_sorted_nodup (sortByFrameNumber_sorted l1)
      (((sortByFrameNumber_perm l1).map Prod.fst).nodup_iff.mpr hnd)

/-- Witness for C9 with two parse results arriving in the two possible
completion orders. -/
theorem sonar_fanout_order_independent_witness :
    process_session_v1 [7, 8] [5, 9] ⟨1, "a", 2⟩ [(0, 5), (1, 9)]
        ⟨[], fun _ => none, fun _ => [], fun _ => false⟩ =
      process_session_v1 [7, 8] [5, 9] ⟨1, "a", 2⟩ [(1, 9), (0, 5)]
        ⟨[], fun _ => none, fun _ => [], fun _ => false⟩ :=
  (sonar_fanout_order_independent [(0, 5), (1, 9)] [(1, 9), (0, 5)]
    (List.Perm.swap _ _ _) (by decide) [7, 8] [5, 9] ⟨1, "a", 2⟩
    ⟨[], fun _ => none, fun _ => [], fun _ => false⟩).1

/-! ## Depth-statistics recomputation after FrameIndex writes

`import_mission_sessions_v2._save_asset_sequence` calls
`asset.calculate_stats()` unconditionally after its `bulk_create` (line
387).  `import_mission_sessions_v2.import_camera_0` (lines 229–244)
accumulates FrameIndex rows in a batch, flushes whenever the batch
reaches 2000 rows, and calls `calculate_stats()` only inside the final
`if batch:` block — i.e. only when the last batch is non-empty.
`import_sonar_imageset_v1.process_session` and
`import_panasonic_imageset_v1.process_session` contain no
`calculate_stats` call at all (see `process_session_v1`). -/

/-- One iteration of the `import_camera_0` frame loop on the state
`(rows written so far, current batch length)`: append one row, flush when
the batch reaches 2000 (`if len(batch) >= 2000`). -/
def camera0Step (acc : ℕ × ℕ) : ℕ × ℕ :=
  let b := acc.2 + 1
  if 2000 ≤ b then (acc.1 + b, 0) else (acc.1, b)

/-- The `for i in range(total_frames)` loop of `import_camera_0`
(lines 209–239), tracking rows written and the pending batch length. -/
def camera0Loop : ℕ → ℕ × ℕ
  | 0 => (0, 0)
  | n + 1 => camera0Step (camera0Loop n)

/-- The tail of `import_camera_0` (lines 241–244): flush the last batch
and call `calculate_stats` only if it is non-empty.  Returns (total rows
written, whether `calculate_stats` was invoked); the whole block runs only
when `video_fps` is truthy and `total_frames > 0` (line 202). -/
def import_camera_0_effect (video_fps_valid : Bool) (total_frames : ℕ) : ℕ × Bool :=
  if video_fps_valid = true ∧ 0 < total_frames then
    let r := camera0Loop total_frames
    if r.2 ≠ 0 then (r.1 + r.2, true) else (r.1, false)
  else (0, false)

theorem camera0Loop_eq (n : ℕ) : camera0Loop n = (n - n % 2000, n % 2000) := by
  induction n with
  | zero => rfl
  | succ n ih =>
    rw [camera0Loop, ih]
    simp only [camera0Step]
    split
    · rw [Prod.mk.injEq]
      constructor <;> omega
    · rw [Prod.mk.injEq]
      constructor <;> omega

/-- C8 counterexample: `import_camera_0` with exactly 2000 frames (one
full write batch) writes all 2000 FrameIndex rows yet never invokes
`calculate_stats`, and the sonar-v1 importer persists frames without ever
recomputing stats — refuting the claim that stats are recomputed for
every importer modality and every frame count. -/
theorem camera0_stats_skipped_at_batch_multiple :
    import_camera_0_effect true 2000 = (2000, false) ∧
    (process_session_v1 [] [] ⟨0, "s", 0⟩ [(0, 1)]
      ⟨[], fun _ => none, fun _ => [], fun _ => false⟩).statsFresh ⟨0, "s", 0⟩ = false := by
  constructor
  · simp [import_camera_0_effect, camera0Loop_eq]
  · rfl

/-- C8 amended: after `_save_asset_sequence` (camera-1 and sonar
modalities of the v2 importer) the asset's stats are always recomputed;
`import_camera_0` recomputes them only when `total_frames` is positive
and not an exact multiple of the 2000-row batch size (it writes
`total_frames` rows either way); the v1 sonar/panasonic importers never
recompute stats. -/
theorem stats_recompute_amended :
    (∀ (nav_ids : List ℕ) (nav_ts : List ℤ) (key : AssetKey) (fd : List (ℕ × ℤ)) (db : DB),
      fd.isEmpty = false →
      (save_asset_sequence_v2 nav_ids nav_ts key fd db).statsFresh key = true) ∧
    (∀ (nav_ids : List ℕ) (nav_ts : List ℤ) (key : AssetKey) (fd : List (ℕ × ℤ)) (db : DB),
      (process_session_v1 nav_ids nav_ts key fd db).statsFresh = db.statsFresh) ∧
    (∀ n : ℕ, import_camera_0_effect true n = (n, decide (0 < n ∧ n % 2000 ≠ 0))) := by
  refine ⟨fun nav_ids nav_ts key fd db hfd => ?_, fun nav_ids nav_ts key fd db => ?_, fun n => ?_⟩
  · rw [save_v2_statsFresh hfd, if_pos rfl]
  · by_cases hfd : fd.isEmpty
    · simp [process_session_v1, hfd]
    · rw [Bool.not_eq_true] at hfd
      exact process_v1_statsFresh hfd db
  · by_cases hn : 0 < n
    · by_cases hr : n % 2000 = 0
      · simp [import_camera_0_effect, camera0Loop_eq, hn, hr]
      · have : n - n % 2000 + n % 2000 = n := by omega
        simp [import_camera_0_effect, camera0Loop_eq, hn, hr, this]
    · have hn0 : n = 0 := by omega
      subst hn0
      simp [import_camera_0_effect]

/-- Witness for C8's amended theorem: a concrete one-frame
`_save_asset_sequence` import leaves the asset's stats recomputed. -/
theorem stats_recompute_amended_witness :
    (save_asset_sequence_v2 [] [] ⟨0, "t", 0⟩ [(0, 1)]
      ⟨[], fun _ => none, fun _ => [], fun _ => false⟩).statsFresh ⟨0, "t", 0⟩ = true :=
  stats_recompute_amended.1 [] [] ⟨0, "t", 0⟩ [(0, 1)]
    ⟨[], fun _ => none, fun _ => [], fun _ => false⟩ (by decide)

/-! ## Binary telemetry loader (`parse_bin_log.py`)

`SimplifiedBinLoader.run` streams decoded messages, resolves each to an
absolute timestamp (microseconds here), filters against the mission
window, routes by message type and instance into per-model batches, and
flushes a batch when it reaches `batch_size` plus a final flush at end of
stream.  `_flush_batch` catches persistence exceptions and only adds the
batch length to the error counter. -/

/-- The message type tags the loader dispatches on (`msg.get_type()`). -/
inductive MsgType
  | IMU
  | MAG
  | BARO
  | AHR2
  | OTHER
deriving DecidableEq

/-- A decoded pymavlink message with the fields the loader inspects:
type tag, optional boot-relative `TimeUS` in microseconds (`none` models
a missing attribute), optional instance attribute `I`. -/
structure Msg where
  msgType : MsgType
  timeUS : Option ℕ
  inst : Option ℕ
deriving DecidableEq

/-- The per-model batch keys of `run`'s `batches` dict: ImuSample,
CompassSample, PressureSample, NavSample. -/
inductive SKind
  | imu
  | compass
  | pressure
  | nav
deriving DecidableEq

/-- A sample appended to a batch: its model kind and resolved timestamp
(epoch microseconds). -/
structure Sample where
  kind : SKind
  timestamp : ℤ
deriving DecidableEq

/-- Loader configuration: mission window `[start_time, end_time]`,
log-file creation time (`logfile.created_at`), the instance allow-lists,
the `deployments_by_sensor_type` lookup, and the batch size. -/
structure LoaderCfg where
  start_time : ℤ
  end_time : ℤ
  created_at : ℤ
  imu_instances : List ℕ
  mag_instances : List ℕ
  baro_instances : List ℕ
  hasDeployment : SKind → ℕ → Bool
  batch_size : ℕ

/-- `_resolve_timestamp` (lines 377–385), at microsecond granularity:
`created_at + TimeUS` when the message has a truthy (present and
non-zero) `TimeUS`, else the log-file creation time. -/
def resolve_timestamp (cfg : LoaderCfg) (m : Msg) : ℤ :=
  match m.timeUS with
  | some t => if t ≠ 0 then cfg.created_at + t else cfg.created_at
  | none => cfg.created_at

/-- The type dispatch of `run` (lines 233–242) with the per-type handlers
`_process_imu_message` / `_process_mag_message` / `_process_baro_message`
(instance allow-list then deployment lookup, silently dropping on either
miss) and `_process_ahr2_message` (always creates a NavSample).  Returns
the sample appended to a batch, if any. -/
def route_message (cfg : LoaderCfg) (m : Msg) (t : ℤ) : Option Sample :=
  match m.msgType with
  | MsgType.IMU =>
    match m.inst with
    | none => none
    | some i =>
      if i ∈ cfg.imu_instances ∧ cfg.hasDeployment SKind.imu i then
        some ⟨SKind.imu, t⟩
      else none
  | MsgType.MAG =>
    match m.inst with
    | none => none
    | some i =>
      if i ∈ cfg.mag_instances ∧ cfg.hasDeployment SKind.compass i then
        some ⟨SKind.compass, t⟩
      else none
  | MsgType.BARO =>
    match m.inst with
    | none => none
    | some i =>
      if i ∈ cfg.baro_instances ∧ cfg.hasDeployment SKind.pressure i then
        some ⟨SKind.pressure, t⟩
      else none
  | MsgType.AHR2 => some ⟨SKind.nav, t⟩
  | MsgType.OTHER => none

/-- Mutable state of one `run`: the per-model batches, the rows whose
flush succeeded, and the `filtered`/`errors` statistics; `flushes` counts
the flush attempts so a failure pattern can be indexed. -/
structure LoaderState where
  batches : SKind → List Sample
  persisted : List Sample
  filtered : ℕ
  errors : ℕ
  flushes : ℕ

/-- `_flush_batch` (lines 387–397) followed by the caller's batch reset:
empty batches are a no-op; otherwise the batch is cleared and either
persisted or — when the bulk create raises (`flushFails` says which
attempts do) — the exception is caught and `errors` grows by the batch
length. -/
def flush_batch (flushFails : ℕ → Bool) (st : LoaderState) (k : SKind) : LoaderState :=
  let batch := st.batches k
  if batch.isEmpty then st
  else if flushFails st.flushes then
    { st with batches := fun j => if j = k then [] else st.batches j
              errors := st.errors + batch.length
              flushes := st.flushes + 1 }
  else
    { st with batches := fun j => if j = k then [] else st.batches j
              persisted := st.persisted ++ batch
              flushes := st.flushes + 1 }

/-- The per-message flush check of `run` (lines 245–248): every batch that
reached `batch_size` is flushed, in the dict's insertion order. -/
def flushFull (cfg : LoaderCfg) (flushFails : ℕ → Bool) (st : LoaderState) : LoaderState :=
  [SKind.imu, SKind.compass, SKind.pressure, SKind.nav].foldl
    (fun st' k =>
      if cfg.batch_size ≤ (st'.batches k).length then flush_batch flushFails st' k else st') st

/-- `batches[ModelClass].append(sample)` for the routed sample, if any. -/
def appendSample (st : LoaderState) (o : Option Sample) : LoaderState :=
  match o with
  | some s =>
    { st with batches := fun k => if k = s.kind then st.batches s.kind ++ [s] else st.batches k }
  | none => st

/-- One iteration of `run`'s message loop (lines 217–253): resolve the
timestamp; if it lies outside `[start_time, end_time]` count it filtered
and continue; otherwise route the message, append the routed sample and
flush full batches. -/
def loader_step (cfg : LoaderCfg) (flushFails : ℕ → Bool) (st : LoaderState) (m : Msg) :
    LoaderState :=
  let t := resolve_timestamp cfg m
  if cfg.start_time ≤ t ∧ t ≤ cfg.end_time then
    flushFull cfg flushFails (appendSample st (route_message cfg m t))
  else { st with filtered := st.filtered + 1 }

/-- The initial `run` state: empty batches, nothing persisted, zeroed
statistics. -/
def initLoaderState : LoaderState :=
  ⟨fun _ => [], [], 0, 0, 0⟩

/-- `SimplifiedBinLoader.run` (lines 201–261): fold the message loop over
the stream, then flush the remaining non-empty batches. -/
def loader_run (cfg : LoaderCfg) (flushFails : ℕ → Bool) (msgs : List Msg) : LoaderState :=
  [SKind.imu, SKind.compass, SKind.pressure, SKind.nav].foldl
    (fun st k => flush_batch flushFails st k)
    (msgs.foldl (loader_step cfg flushFails) initLoaderState)

/-- `Command.process_single_file` (lines 116–152): open and stream the
log (`Except.error` models a file-open/stream failure propagating out of
the parsing run), run the loader, then set `already_parsed = True`.
Returns the flag value and the run result. -/
def process_single_file (cfg : LoaderCfg) (flushFails : ℕ → Bool)
    (stream : Except String (List Msg)) (already_parsed : Bool) :
    Bool × Option LoaderState :=
  match stream with
  | Except.error _ => (already_parsed, none)
  | Except.ok msgs => (true, some (loader_run cfg flushFails msgs))

/-- A sample timestamp inside the closed mission window. -/
def sampleInWindow (cfg : LoaderCfg) (s : Sample) : Prop :=
  cfg.start_time ≤ s.timestamp ∧ s.timestamp ≤ cfg.end_time

/-- Invariant: every sample sitting in a batch or already persisted lies
inside the mission window. -/
def stateInWindow (cfg : LoaderCfg) (st : LoaderState) : Prop :=
  (∀ s ∈ st.persisted, sampleInWindow cfg s) ∧ ∀ k, ∀ s ∈ st.batches k, sampleInWindow cfg s

theorem route_message_timestamp {cfg : LoaderCfg} {m : Msg} {t : ℤ} {s : Sample}
    (h : route_message cfg m t = some s) : s.timestamp = t := by
  unfold route_message at h
  split at h <;> try split at h <;> try split at h
  all_goals simp_all
  all_goals rw [← h]

theorem flush_batch_window {cfg : LoaderCfg} (ff : ℕ → Bool) {st : LoaderState} (k : SKind)
    (h : stateInWindow cfg st) : stateInWindow cfg (flush_batch ff st k) := by
  simp only [flush_batch]
  split
  · exact h
  · split
    · refine ⟨h.1, fun j s hs => ?_⟩
      dsimp only at hs
      split at hs
      · simp at hs
      · exact h.2 j s hs
    · refine ⟨fun s hs => ?_, fun j s hs => ?_⟩
      · dsimp only at hs
        rcases List.mem_append.mp hs with h1 | h2
        · exact h.1 s h1
        · exact h.2 k s h2
      · dsimp only at hs
        split at hs
        · simp at hs
        · exact h.2 j s hs

theorem flushStep_window (cfg : LoaderCfg) (ff : ℕ → Bool) (k : SKind) {st : LoaderState}
    (h : stateInWindow cfg st) :
    stateInWindow cfg
      (if cfg.batch_size ≤ (st.batches k).length then flush_batch ff st k else st) := by
  split
  · exact flush_batch_window ff k h
  · exact h

theorem flushFull_window {cfg : LoaderCfg} (ff : ℕ → Bool) {st : LoaderState}
    (h : stateInWindow cfg st) : stateInWindow cfg (flushFull cfg ff st) := by
  simp only [flushFull, List.foldl]
  exact flushStep_window _ _ _ (flushStep_window _ _ _
    (flushStep_window _ _ _ (flushStep_window _ _ _ h)))

theorem appendSample_window {cfg : LoaderCfg} {st : LoaderState} {o : Option Sample}
    (h : stateInWindow cfg st) (ho : ∀ s, o = some s → sampleInWindow cfg s) :
    stateInWindow cfg (appendSample st o) := by
  cases o with
  | none => exact h
  | some s =>
    refine ⟨h.1, fun j s' hs' => ?_⟩
    dsimp only [appendSample] at hs'
    split at hs'
    · rcases List.mem_append.mp hs' with h1 | h2
      · exact h.2 _ s' h1
      · rw [List.mem_singleton.mp h2]
        exact ho s rfl
    · exact h.2 j s' hs'

theorem loader_step_window {cfg : LoaderCfg} (ff : ℕ → Bool) {st : LoaderState} (m : Msg)
    (h : stateInWindow cfg st) : stateInWindow cfg (loader_step cfg ff st m) := by
  simp only [loader_step]
  split
  next hw =>
    refine flushFull_window ff (appendSample_window h fun s hs => ?_)
    unfold sampleInWindow
    rw [route_message_timestamp hs]
    exact hw
  next hw => exact ⟨h.1, h.2⟩

theorem loader_run_window (cfg : LoaderCfg) (ff : ℕ → Bool) (msgs : List Msg) :
    stateInWindow cfg (loader_run cfg ff msgs) := by
  have hfold : ∀ st, stateInWindow cfg st →
      stateInWindow cfg (msgs.foldl (loader_step cfg ff) st) := by
    induction msgs with
    | nil => exact fun st h => h
    | cons m ms ih => exact fun st h => ih _ (loader_step_window ff m h)
  have hinit : stateInWindow cfg initLoaderState :=
    ⟨fun s hs => by simp [initLoaderState] at hs, fun k s hs => by simp [initLoaderState] at hs⟩
  simp only [loader_run, List.foldl]
  exact flush_batch_window ff _ (flush_batch_window ff _
    (flush_batch_window ff _ (flush_batch_window ff _ (hfold _ hinit))))

/-- The window test `run` applies to a message's resolved timestamp,
negated: `True` when the message is counted as filtered. -/
def msg_out_of_window (cfg : LoaderCfg) (m : Msg) : Bool :=
  !(decide (cfg.start_time ≤ resolve_timestamp cfg m ∧
    resolve_timestamp cfg m ≤ cfg.end_time))

theorem flush_batch_filtered (ff : ℕ → Bool) (st : LoaderState) (k : SKind) :
    (flush_batch ff st k).filtered = st.filtered := by
  simp only [flush_batch]
  split
  · rfl
  · split <;> rfl

theorem flushStep_filtered (cfg : LoaderCfg) (ff : ℕ → Bool) (k : SKind) (st : LoaderState) :
    (if cfg.batch_size ≤ (st.batches k).length then flush_batch ff st k
      else st).filtered = st.filtered := by
  split
  · exact flush_batch_filtered ff st k
  · rfl

theorem flushFull_filtered (cfg : LoaderCfg) (ff : ℕ → Bool) (st : LoaderState) :
    (flushFull cfg ff st).filtered = st.filtered := by
  simp only [flushFull, List.foldl]
  rw [flushStep_filtered, flushStep_filtered, flushStep_filtered, flushStep_filtered]

theorem appendSample_filtered (st : LoaderState) (o : Option Sample) :
    (appendSample st o).filtered = st.filtered := by
  cases o <;> rfl

theorem loader_step_filtered (cfg : LoaderCfg) (ff : ℕ → Bool) (st : LoaderState) (m : Msg) :
    (loader_step cfg ff st m).filtered =
      st.filtered + (if msg_out_of_window cfg m then 1 else 0) := by
  simp only [loader_step]
  split
  next hw =>
    rw [flushFull_filtered, appendSample_filtered]
    have hb : msg_out_of_window cfg m = false := by
      simp [msg_out_of_window, hw.1, hw.2]
    rw [hb]
    simp
  next hw =>
    have hb : msg_out_of_window cfg m = true := by
      simp [msg_out_of_window, hw]
    rw [hb]
    simp

theorem loader_run_filtered (cfg : LoaderCfg) (ff : ℕ → Bool) (msgs : List Msg) :
    (loader_run cfg ff msgs).filtered = msgs.countP (msg_out_of_window cfg) := by
  have hfold : ∀ st, (msgs.foldl (loader_step cfg ff) st).filtered =
      st.filtered + msgs.countP (msg_out_of_window cfg) := by
    induction msgs with
    | nil => intro st; simp
    | cons m ms ih =>
      intro st
      rw [List.foldl_cons, ih, loader_step_filtered, List.countP_cons]
      rcases Bool.eq_false_or_eq_true (msg_out_of_window cfg m) with hw | hw <;>
        (simp [hw]; try omega)
  simp only [loader_run, List.foldl]
  rw [flush_batch_filtered, flush_batch_filtered, flush_batch_filtered, flush_batch_filtered,
    hfold]
  simp [initLoaderState]

/-- C3: for every run of the binary-log loader, every sample in a
persistence batch and every persisted sample has its resolved timestamp
inside the closed mission window `[start_time, end_time]`, and the
filtered-messages counter equals exactly the number of messages whose
resolved timestamp falls outside that window (such messages are never
persisted). -/
theorem mission_window_filter_correct (cfg : LoaderCfg) (ff : ℕ → Bool) (msgs : List Msg) :
    (∀ s ∈ (loader_run cfg ff msgs).persisted,
      cfg.start_time ≤ s.timestamp ∧ s.timestamp ≤ cfg.end_time) ∧
    (∀ k, ∀ s ∈ (loader_run cfg ff msgs).batches k,
      cfg.start_time ≤ s.timestamp ∧ s.timestamp ≤ cfg.end_time) ∧
    (loader_run cfg ff msgs).filtered = msgs.countP (msg_out_of_window cfg) :=
  ⟨(loader_run_window cfg ff msgs).1, (loader_run_window cfg ff msgs).2,
    loader_run_filtered cfg ff msgs⟩

/-- Witness for C3: a two-message stream (one AHR2 inside the window, one
outside) persists exactly the in-window NavSample and counts one filtered
message. -/
theorem mission_window_filter_correct_witness :
    ((0 : ℤ) ≤ (5 : ℤ) ∧ (5 : ℤ) ≤ (10 : ℤ)) ∧
    (loader_run ⟨0, 10, 5, [0], [0], [1], fun _ _ => true, 1000⟩ (fun _ => false)
      [⟨MsgType.AHR2, none, none⟩, ⟨MsgType.AHR2, some 20, none⟩]).filtered =
      List.countP (msg_out_of_window ⟨0, 10, 5, [0], [0], [1], fun _ _ => true, 1000⟩)
        [⟨MsgType.AHR2, none, none⟩, ⟨MsgType.AHR2, some 20, none⟩] :=
  ⟨(mission_window_filter_correct ⟨0, 10, 5, [0], [0], [1], fun _ _ => true, 1000⟩
      (fun _ => false) [⟨MsgType.AHR2, none, none⟩, ⟨MsgType.AHR2, some 20, none⟩]).1
      ⟨SKind.nav, 5⟩ (by decide),
    (mission_window_filter_correct ⟨0, 10, 5, [0], [0], [1], fun _ _ => true, 1000⟩
      (fun _ => false) [⟨MsgType.AHR2, none, none⟩, ⟨MsgType.AHR2, some 20, none⟩]).2.2⟩

/-- C7: timestamp resolution — a message carrying `TimeUS = u` resolves to
`created_at + u` microseconds (for `u = 0` the code takes the fallback
branch, which agrees); a message lacking `TimeUS` resolves to the log
file's creation time and is not dropped on that account: an AHR2 message
without `TimeUS` still routes to a NavSample carrying the creation time. -/
theorem timestamp_resolution_correct (cfg : LoaderCfg) :
    (∀ (m : Msg) (u : ℕ), m.timeUS = some u →
      resolve_timestamp cfg m = cfg.created_at + u) ∧
    (∀ m : Msg, m.timeUS = none → resolve_timestamp cfg m = cfg.created_at) ∧
    (∀ m : Msg, m.timeUS = none → m.msgType = MsgType.AHR2 →
      route_message cfg m (resolve_timestamp cfg m) = some ⟨SKind.nav, cfg.created_at⟩) := by
  refine ⟨fun m u hu => ?_, fun m hn => ?_, fun m hn ht => ?_⟩
  · by_cases h0 : u = 0
    · subst h0
      simp [resolve_timestamp, hu]
    · simp [resolve_timestamp, hu, h0]
  · simp [resolve_timestamp, hn]
  · simp [route_message, ht, resolve_timestamp, hn]

/-- Witness for C7 at a concrete AHR2 message with `TimeUS = 250`. -/
theorem timestamp_resolution_correct_witness :
    resolve_timestamp ⟨0, 10, 100, [0], [0], [1], fun _ _ => true, 1000⟩
        ⟨MsgType.AHR2, some 250, none⟩ = 100 + (250 : ℕ) :=
  (timestamp_resolution_correct ⟨0, 10, 100, [0], [0], [1], fun _ _ => true, 1000⟩).1
    ⟨MsgType.AHR2, some 250, none⟩ 250 rfl

/-- C10: when the message stream is consumed to the end, the
`already_parsed` flag is set to `True` afterwards regardless of which (if
any) batch flushes failed — `_flush_batch` catches the persistence
exception and only adds the batch length to the error counter, persisting
nothing from that batch and never re-raising; the flag keeps its previous
value only when opening or streaming the file raises out of the run. -/
theorem already_parsed_despite_flush_failures (cfg : LoaderCfg) (ff : ℕ → Bool)
    (msgs : List Msg) (flag : Bool) :
    (process_single_file cfg ff (Except.ok msgs) flag).1 = true ∧
    (∀ e, (process_single_file cfg ff (Except.error e) flag).1 = flag) ∧
    (∀ (st : LoaderState) (k : SKind), (st.batches k).isEmpty = false →
      ff st.flushes = true →
      (flush_batch ff st k).errors = st.errors + (st.batches k).length ∧
      (flush_batch ff st k).persisted = st.persisted) := by
  refine ⟨rfl, fun e => rfl, fun st k hne hf => ?_⟩
  simp only [flush_batch]
  rw [if_neg (by simp [hne]), if_pos hf]
  exact ⟨rfl, rfl⟩

/-- Witness for C10: a run whose only flush attempt fails still reports
`already_parsed = true`, and a concrete failing flush only counts its
batch into the error counter. -/
theorem already_parsed_despite_flush_failures_witness :
    (process_single_file ⟨0, 10, 5, [0], [0], [1], fun _ _ => true, 1000⟩ (fun _ => true)
      (Except.ok [⟨MsgType.AHR2, none, none⟩]) false).1 = true ∧
    (flush_batch (fun _ => true)
        ⟨fun k => if k = SKind.nav then [⟨SKind.nav, 5⟩] else [], [], 0, 0, 0⟩
        SKind.nav).errors = 0 + 1 :=
  ⟨(already_parsed_despite_flush_failures ⟨0, 10, 5, [0], [0], [1], fun _ _ => true, 1000⟩
      (fun _ => true) [⟨MsgType.AHR2, none, none⟩] false).1,
    ((already_parsed_despite_flush_failures ⟨0, 10, 5, [0], [0], [1], fun _ _ => true, 1000⟩
      (fun _ => true) [⟨MsgType.AHR2, none, none⟩] false).2.2
      ⟨fun k => if k = SKind.nav then [⟨SKind.nav, 5⟩] else [], [], 0, 0, 0⟩
      SKind.nav (by decide) rfl).1⟩

/-! ## Tide correction (`correct_depths.py`)

Event times are epoch seconds (integers); heights and depths are Python
floats modelled as reals, so the definitions in this section are
noncomputable (they use `Real.cos`). -/

/-- A `TideLevel` row: event time and tide height in meters. -/
structure TideLevelRec where
  time : ℤ
  tide_height_m : ℝ

/-- `Command.calculate_tide_height` (lines 109–137): the cosine
interpolation `y = (H_start + H_end)/2 + (H_start − H_end)/2 ·
cos(π·t/T)` between the bracketing events, with the degenerate `T == 0`
case returning the previous event's height directly. -/
noncomputable def calculate_tide_height (current_time : ℤ)
    (prev_event next_event : TideLevelRec) : ℝ :=
  let T_seconds : ℝ := ((next_event.time - prev_event.time : ℤ) : ℝ)
  if T_seconds = 0 then prev_event.tide_height_m
  else
    let t_seconds : ℝ := ((current_time - prev_event.time : ℤ) : ℝ)
    let H_start := prev_event.tide_height_m
    let H_end := next_event.tide_height_m
    (H_start + H_end) / 2 + (H_start - H_end) / 2 * Real.cos (Real.pi * t_seconds / T_seconds)

/-- C5: for a bracketed sample the interpolated tide height lies between
the two bracketing heights (inclusive) for every elapsed time `0 ≤ t ≤ T`
with `T > 0`, and the degenerate case `T = 0` returns `H_start`. -/
theorem tide_height_bounded (p n : TideLevelRec) (ct : ℤ)
    (h0 : p.time ≤ ct) (h1 : ct ≤ n.time) :
    (p.time < n.time →
      min p.tide_height_m n.tide_height_m ≤ calculate_tide_height ct p n ∧
      calculate_tide_height ct p n ≤ max p.tide_height_m n.tide_height_m) ∧
    (n.time = p.time → calculate_tide_height ct p n = p.tide_height_m) := by
  constructor
  · intro hT
    have hTne : ((n.time - p.time : ℤ) : ℝ) ≠ 0 := by
      have : (0 : ℤ) < n.time - p.time := by omega
      exact_mod_cast ne_of_gt (by exact_mod_cast this)
    unfold calculate_tide_height
    rw [if_neg hTne]
    set c := Real.cos (Real.pi * ((ct - p.time : ℤ) : ℝ) / ((n.time - p.time : ℤ) : ℝ)) with hc
    have hc1 : -1 ≤ c := Real.neg_one_le_cos _
    have hc2 : c ≤ 1 := Real.cos_le_one _
    rcases le_total p.tide_height_m n.tide_height_m with hle | hle
    · rw [min_eq_left hle, max_eq_right hle]
      constructor
      · nlinarith [mul_nonneg (sub_nonneg.mpr hle) (sub_nonneg.mpr hc2)]
      · nlinarith [mul_nonneg (sub_nonneg.mpr hle) (by linarith : (0 : ℝ) ≤ c + 1)]
    · rw [min_eq_right hle, max_eq_left hle]
      constructor
      · nlinarith [mul_nonneg (sub_nonneg.mpr hle) (by linarith : (0 : ℝ) ≤ c + 1)]
      · nlinarith [mul_nonneg (sub_nonneg.mpr hle) (sub_nonneg.mpr hc2)]
  · intro hT0
    unfold calculate_tide_height
    rw [if_pos (by rw [hT0]; simp)]

/-- Witness for C5 at events `(t=0, H=2)` and `(t=1, H=1)`, sample at
`t=0`. -/
theorem tide_height_bounded_witness :
    min (TideLevelRec.mk 0 2).tide_height_m (TideLevelRec.mk 1 1).tide_height_m ≤
      calculate_tide_height 0 (TideLevelRec.mk 0 2) (TideLevelRec.mk 1 1) ∧
    calculate_tide_height 0 (TideLevelRec.mk 0 2) (TideLevelRec.mk 1 1) ≤
      max (TideLevelRec.mk 0 2).tide_height_m (TideLevelRec.mk 1 1).tide_height_m :=
  (tide_height_bounded ⟨0, 2⟩ ⟨1, 1⟩ 0 (by norm_num) (by norm_num)).1 (by norm_num)

/-- A `NavSample` row as used by `correct_depths`: id, timestamp, raw and
corrected depth in meters. -/
structure NavSampleRec where
  ident : ℕ
  timestamp : ℤ
  depth_m : Option ℝ
  corrected_depth_m : Option ℝ

/-- `get_surrounding_tides` (lines 98–107): scan the sorted tide events
for the first pair of consecutive events whose closed interval contains
the sample time; `(None, None)` when no bracket exists. -/
def get_surrounding_tides (sample_time : ℤ) :
    List TideLevelRec → Option (TideLevelRec × TideLevelRec)
  | e1 :: e2 :: rest =>
    if e1.time ≤ sample_time ∧ sample_time ≤ e2.time then some (e1, e2)
    else get_surrounding_tides sample_time (e2 :: rest)
  | _ => none

/-- The per-sample body of `correct_depths.handle` (lines 62–77): samples
with a null `depth_m` or no bracketing tide events are skipped (excluded
from `samples_to_update`); otherwise the corrected copy with
`corrected_depth_m = depth_m − tide_height` is queued for the bulk
update. -/
noncomputable def correctSample (tide_events : List TideLevelRec) (s : NavSampleRec) :
    Option NavSampleRec :=
  match s.depth_m with
  | none => none
  | some d =>
    match get_surrounding_tides s.timestamp tide_events with
    | some (p, n) =>
      some { s with corrected_depth_m := some (d - calculate_tide_height s.timestamp p n) }
    | none => none

/-- The net effect of `handle` on a mission's samples (lines 59–81):
`bulk_update(['corrected_depth_m'])` rewrites only the samples collected
in `samples_to_update`; every skipped sample keeps its stored row. -/
noncomputable def correct_depths_handle (tide_events : List TideLevelRec)
    (samples : List NavSampleRec) : List NavSampleRec :=
  samples.map (fun s => (correctSample tide_events s).getD s)

/-- C6: a NavSample whose raw depth is null, or whose timestamp no pair of
consecutive loaded tide events brackets, is excluded from the bulk update:
the row at its position after `correct_depths` is exactly the original
row, so `corrected_depth_m` keeps its prior value. -/
theorem correct_depths_skips_unbracketed (te : List TideLevelRec)
    (samples : List NavSampleRec) (i : ℕ) (hi : i < samples.length)
    (h : (samples.get ⟨i, hi⟩).depth_m = none ∨
      get_surrounding_tides (samples.get ⟨i, hi⟩).timestamp te = none) :
    ∃ hi' : i < (correct_depths_handle te samples).length,
      (correct_depths_handle te samples).get ⟨i, hi'⟩ = samples.get ⟨i, hi⟩ := by
  have hlen : (correct_depths_handle te samples).length = samples.length := by
    simp [correct_depths_handle]
  refine ⟨by omega, ?_⟩
  have hnone : correctSample te (samples.get ⟨i, hi⟩) = none := by
    simp only [List.get_eq_getElem] at h
    cases h with
    | inl hd => simp [correctSample, hd]
    | inr hb =>
      cases hdm : samples[i].depth_m with
      | none => simp [correctSample, hdm]
      | some d => simp [correctSample, hdm, hb]
  simp only [correct_depths_handle, List.get_map]
  rw [hnone]
  rfl

/-- Witness for C6: a single sample with no tide data loaded is returned
unchanged. -/
theorem correct_depths_skips_unbracketed_witness :
    ∃ hi' : 0 < (correct_depths_handle []
        [NavSampleRec.mk 0 5 (some 1) none]).length,
      (correct_depths_handle [] [NavSampleRec.mk 0 5 (some 1) none]).get ⟨0, hi'⟩ =
        ([NavSampleRec.mk 0 5 (some 1) none]).get ⟨0, by norm_num⟩ :=
  correct_depths_skips_unbracketed [] [NavSampleRec.mk 0 5 (some 1) none] 0
    (by norm_num) (Or.inr rfl)

end AI4Ports
